import Mathlib

/-!
Shallow embedding of the `fl-go` utility scripts:

* `src/scripts/create_initial_model.py` — writes a placeholder binary model
  file of packed little-endian IEEE-754 float32 weights
  (`weights = [0.1 * (i + 1) for i in range(num_params)]`, then
  `f.write(struct.pack('<f', weight))` for each weight, after
  `os.makedirs(os.path.dirname(model_path), exist_ok=True)`).
* `src/scripts/train.py` — loads a checkpoint with `torch.load`, trains a
  linear layer through the external framework, and saves the result with
  `torch.save`.

Float32 values are represented by their 32-bit patterns (`Nat < 2^32`);
all float arithmetic performed by the Python scripts (double-precision
evaluation of `0.1 * (i + 1)` followed by the `struct.pack('<f', ·)`
narrowing cast) is embedded exactly over `Nat`/`Int` via round-to-nearest,
ties-to-even, as IEEE 754 and the CPython runtime prescribe.
-/

/-- Fuel-driven base-2 logarithm worker: with fuel `f`, `natLog2F f n`
computes `⌊log₂ n⌋` for `n ≥ 1` as long as `f ≥ log₂ n` (each step halves
`n` and spends one unit of fuel). -/
def natLog2F : Nat → Nat → Nat
  | 0, _ => 0
  | f + 1, n => if n ≤ 1 then 0 else natLog2F f (n / 2) + 1

/-- Base-2 logarithm, `⌊log₂ n⌋` for `n ≥ 1` (and `0` at `0`): `natLog2F`
with fuel `n`, which always suffices since `log₂ n ≤ n`. -/
def natLog2 (n : Nat) : Nat := natLog2F n n

/-- Floor of `log₂ (a / b)` for a positive rational written as a fraction
of naturals `a / b` (`a, b ≥ 1`): the unique `e` with
`2 ^ e ≤ a / b < 2 ^ (e + 1)`.  For `a ≥ b` this is `⌊log₂ ⌊a / b⌋⌋`;
for `a < b` it is `-k` where `k` is the least exponent with
`2 ^ k ≥ ⌈b / a⌉`. -/
def flog2 (a b : Nat) : Int :=
  if b ≤ a then (natLog2 (a / b) : Int)
  else - ((natLog2 ((b + a - 1) / a - 1) + 1 : Nat) : Int)

/-- Round the fraction `n / d` (`d ≥ 1`) to the nearest natural, ties to
even — the integer-level kernel of IEEE-754 round-to-nearest-even. -/
def divRoundHE (n d : Nat) : Nat :=
  let q := n / d
  let r := n % d
  if 2 * r < d then q
  else if d < 2 * r then q + 1
  else if q % 2 = 0 then q else q + 1

/-- Round the nonnegative rational `a / b` to the IEEE-754 binary format
with `prec` significand bits and minimum normal exponent `emin`
(round-to-nearest, ties to even).  The result is returned as a dyadic
value `m * 2 ^ k`: `k` is the quantum exponent `max (⌊log₂ (a/b)⌋, emin)
- (prec - 1)` (so subnormal inputs are rounded on the fixed grid
`2 ^ (emin - prec + 1)`), and `m` the correctly rounded significand.
Overflow to infinity is not modelled; no value produced by these scripts
approaches the overflow threshold. -/
def roundPosRat (prec : Nat) (emin : Int) (a b : Nat) : Nat × Int :=
  let e : Int := max (flog2 a b) emin
  let k : Int := e - ((prec : Int) - 1)
  let nd : Nat × Nat :=
    if 0 ≤ k then (a, b * 2 ^ k.toNat) else (a * 2 ^ (-k).toNat, b)
  (divRoundHE nd.1 nd.2, k)

/-- View a nonnegative dyadic value `m * 2 ^ k` as a fraction of
naturals. -/
def dyToFrac (m : Nat) (k : Int) : Nat × Nat :=
  if 0 ≤ k then (m * 2 ^ k.toNat, 1) else (m, 2 ^ (-k).toNat)

/-- Round a nonnegative dyadic value `m * 2 ^ k` into the IEEE-754 format
with `prec` significand bits and minimum normal exponent `emin`. -/
def roundPosDy (prec : Nat) (emin : Int) (m : Nat) (k : Int) : Nat × Int :=
  let ab := dyToFrac m k
  roundPosRat prec emin ab.1 ab.2

/-- Evaluation of a CPython nonnegative `float` literal written as the
fraction `a / b`: the IEEE-754 binary64 (53-bit significand, emin -1022)
value nearest `a / b`, as a dyadic `m * 2 ^ k`. -/
def pyFloatOfFrac (a b : Nat) : Nat × Int := roundPosRat 53 (-1022) a b

/-- The CPython `float` value of the literal `0.1`
(`3602879701896397 * 2 ^ (-55)`). -/
def pyLit01 : Nat × Int := pyFloatOfFrac 1 10

/-- Conversion of a natural number to a CPython `float` (binary64),
as performed when an `int` operand is promoted for `float * int`. -/
def pyFloatOfNat (n : Nat) : Nat × Int := roundPosDy 53 (-1022) n 0

/-- CPython `float` multiplication of two nonnegative binary64 values:
the exact dyadic product, rounded back to binary64
(round-to-nearest-even). -/
def pyMulDouble (x y : Nat × Int) : Nat × Int :=
  roundPosDy 53 (-1022) (x.1 * y.1) (x.2 + y.2)

/-- The double-precision value of the source expression `0.1 * (i + 1)`
(from `create_initial_model`: `weights = [0.1 * (i + 1) for i in
range(num_params)]`). -/
def genWeightDouble (i : Nat) : Nat × Int :=
  pyMulDouble pyLit01 (pyFloatOfNat (i + 1))

/-- Bit pattern of the IEEE-754 binary32 value `m * 2 ^ k` (for a
nonnegative dyadic value exactly representable in binary32, as produced
by `roundPosRat 24 (-126)`): sign bit 0, biased exponent, 23 mantissa
bits, subnormals with exponent field 0. -/
def f32bitsOfPosDy (m : Nat) (k : Int) : Nat :=
  if m = 0 then 0
  else
    let e : Int := k + natLog2 m
    if e < -126 then m * 2 ^ (k + 149).toNat
    else
      let sig : Nat :=
        if 0 ≤ k - e + 23 then m * 2 ^ (k - e + 23).toNat
        else m / 2 ^ (e - k - 23).toNat
      (e + 127).toNat * 2 ^ 23 + (sig - 2 ^ 23)

/-- Embedding of `struct.pack('<f', w)`'s narrowing step for a
nonnegative CPython `float` (binary64 dyadic value): cast to binary32 by
round-to-nearest-even, returning the binary32 bit pattern. -/
def packF32dy (x : Nat × Int) : Nat :=
  let mk := roundPosDy 24 (-126) x.1 x.2
  f32bitsOfPosDy mk.1 mk.2

/-- The float32 weight list of `create_initial_model`
(`[0.1 * (i + 1) for i in range(num_params)]`, each value then narrowed
to binary32 by `struct.pack('<f', ·)`); `range` of a nonpositive count is
empty, so the count is taken as an `Int` and clamped by `Int.toNat`. -/
def genWeights (num_params : Int) : List Nat :=
  (List.range num_params.toNat).map fun i => packF32dy (genWeightDouble i)

/-- The 4-byte little-endian serialization of one binary32 bit pattern
`w` (`struct.pack('<f', weight)` at byte level: least significant byte
first). -/
def packLE (w : Nat) : List Nat :=
  [w % 256, w / 256 % 256, w / 65536 % 256, w / 16777216 % 256]

/-- Encode: the weight-blob codec's serializer.  The loop of
`create_initial_model` (`for weight in weights: f.write(struct.pack('<f',
weight))`) appends the 4 little-endian bytes of each binary32 value in
order, with no header or metadata. -/
def Encode : List Nat → List Nat
  | [] => []
  | w :: rest => packLE w ++ Encode rest

/-- Reassemble one binary32 bit pattern from its 4 little-endian bytes. -/
def unpackLE (b0 b1 b2 b3 : Nat) : Nat :=
  b0 + b1 * 256 + b2 * 65536 + b3 * 16777216

/-- Modelled from the spec: the sequential 4-byte-group reader of
`Decode` (no decoder exists under `src/`; spec §4.1: "Reads 4-byte
little-endian groups sequentially, producing one float32 per group,
preserving order"). -/
def decodeGroups : List Nat → List Nat
  | b0 :: b1 :: b2 :: b3 :: rest => unpackLE b0 b1 b2 b3 :: decodeGroups rest
  | _ => []

/-- Modelled from the spec: `Decode(buffer)` (no decoder exists under
`src/`; spec §4.1): fails with `MalformedBufferError` when the buffer
length is not a multiple of 4, otherwise yields one binary32 bit pattern
per 4-byte little-endian group, in order. -/
def Decode (b : List Nat) : Except String (List Nat) :=
  if b.length % 4 = 0 then .ok (decodeGroups b)
  else .error "MalformedBufferError"

/-- IEEE-754 binary32 valuation of a bit pattern: the exact rational
value of finite patterns, `none` for the exponent-255 patterns
(infinities and NaNs). -/
def float32Val (w : Nat) : Option ℚ :=
  let sign : Nat := w / 2 ^ 31 % 2
  let e : Nat := w / 2 ^ 23 % 2 ^ 8
  let m : Nat := w % 2 ^ 23
  if e = 255 then none
  else
    let mag : ℚ :=
      if e = 0 then (m : ℚ) * (2 : ℚ) ^ (-149 : Int)
      else ((2 ^ 23 + m : Nat) : ℚ) * (2 : ℚ) ^ ((e : Int) - 150)
    some (if sign = 1 then -mag else mag)

/-- Contents of one file in the modelled filesystem.  `blob` is a raw
byte file (what `create_initial_model` writes through `open(path, 'wb')`
/ `f.write`).  `torchCkpt` is modelled from the spec: the external
Training Procedure's own checkpoint container (`torch.save` of a state
dict — a pickled/zipped container with internal metadata, carrying the
weight values), which spec §1/§6 treat as a black box; it is a distinct
on-disk format from a raw headerless byte blob, and `torch.load` accepts
only it. -/
inductive FileData where
  | blob : List Nat → FileData
  | torchCkpt : List Nat → FileData
deriving DecidableEq

/-- The modelled filesystem: the set of existing directories and a map
from path to file contents (newest entry first). -/
structure FS where
  dirs : List String
  files : List (String × FileData)
deriving DecidableEq

/-- Write (create or overwrite) a file; plain file writing always
succeeds in this model. -/
def writeFile (fs : FS) (p : String) (d : FileData) : FS :=
  { fs with files := (p, d) :: fs.files }

/-- Read a file's contents, newest write winning. -/
def readFile (fs : FS) (p : String) : Option FileData :=
  fs.files.lookup p

/-- Strip trailing `'/'` characters (the `head.rstrip('/')` step of
`posixpath.dirname`). -/
def rstripSlash (l : List Char) : List Char :=
  (l.reverse.dropWhile (· = '/')).reverse

/-- Index of the last `'/'` in a character list, if any
(`p.rfind('/')`). -/
def lastSlashPos (p : List Char) : Option Nat :=
  match p.reverse.findIdx? (· = '/') with
  | none => none
  | some j => some (p.length - 1 - j)

/-- Embedding of `os.path.dirname` (POSIX): everything up to and
including the last `'/'`, with trailing slashes stripped unless the head
is all slashes; the empty string when there is no `'/'` at all. -/
def dirnameChars (p : List Char) : List Char :=
  match lastSlashPos p with
  | none => []
  | some i =>
    let head := p.take (i + 1)
    if head.all (· = '/') then head else rstripSlash head

/-- Embedding of `os.path.dirname` on `String`s. -/
def dirname (p : String) : String := String.mk (dirnameChars p.data)

/-- Embedding of `os.makedirs(path, exist_ok=exist_ok)` over the
directory set: `FileNotFoundError` on the empty path (CPython raises
`FileNotFoundError: [Errno 2] ... : ''`), a no-op on an existing path
when `exist_ok` is true (`FileExistsError` when it is false), and
otherwise the directory is created.  The directory set is kept flat:
intermediate-directory creation is collapsed into adding the requested
path, which is faithful for every property stated below. -/
def makedirs (exist_ok : Bool) (path : String) (dirs : List String) :
    Except String (List String) :=
  if path = "" then .error "FileNotFoundError"
  else if path ∈ dirs then
    (if exist_ok then .ok dirs else .error "FileExistsError")
  else .ok (path :: dirs)

/-- Embedding of `create_initial_model(model_path, num_params)`:
`os.makedirs(os.path.dirname(model_path), exist_ok=True)`, then the
weight list `[0.1 * (i + 1) for i in range(num_params)]` is packed value
by value with `struct.pack('<f', ·)` into the output file opened with
`open(model_path, 'wb')`.  On success it returns the new filesystem
together with the two printed report numbers: the parameter count
`len(weights)` and the byte size `len(weights) * 4`. -/
def create_initial_model (model_path : String) (num_params : Int)
    (fs : FS) : Except String (FS × Nat × Nat) :=
  match makedirs true (dirname model_path) fs.dirs with
  | .error e => .error e
  | .ok dirs' =>
    let weights := genWeights num_params
    let bytes := Encode weights
    .ok (writeFile { fs with dirs := dirs' } model_path (.blob bytes),
         weights.length, weights.length * 4)

/-- Embedding of the `__main__` block of `src/scripts/train.py`:
`torch.load(args.model_in)` (which only accepts the framework's
checkpoint container and fails on other file contents), the external
training procedure — a black box per spec §1/§6, passed here as the
function `trainProc` from the loaded weights to the updated weights —
and `torch.save(m.state_dict(), args.model_out)`, which persists the
updated weights in the framework's checkpoint container format. -/
def trainMain (trainProc : List Nat → List Nat)
    (model_in model_out : String) (fs : FS) : Except String FS :=
  match readFile fs model_in with
  | some (.torchCkpt w) =>
      .ok (writeFile fs model_out (.torchCkpt (trainProc w)))
  | some (.blob _) => .error "UnpicklingError"
  | none => .error "FileNotFoundError"

/-- Specification-side generation formula (spec §8.6 / §9: "the
documented generation formula", `0.1 × (index + 1)`): the binary32 value
nearest the exact rational `(i + 1) / 10`, as a bit pattern.  This is
the spec's reading of the formula — a single correct rounding of the
exact real value — to be compared against the source's double-precision
evaluation followed by the narrowing cast. -/
def specFormulaF32 (i : Nat) : Nat :=
  let mk := roundPosRat 24 (-126) (i + 1) 10
  f32bitsOfPosDy mk.1 mk.2

/-! ## Helper lemmas -/

/-- Reassembling the 4 little-endian bytes of a 32-bit pattern recovers
the pattern. -/
theorem unpack_pack (w : Nat) (h : w < 2 ^ 32) :
    unpackLE (w % 256) (w / 256 % 256) (w / 65536 % 256)
      (w / 16777216 % 256) = w := by
  unfold unpackLE
  omega

/-- Encode produces 4 bytes per element. -/
theorem Encode_length (v : List Nat) : (Encode v).length = 4 * v.length := by
  induction v with
  | nil => rfl
  | cons w rest ih =>
      simp only [Encode, packLE, List.length_append, List.length_cons,
        List.length_nil, ih]
      omega

/-- Decoding groups of an encoded vector of genuine 32-bit patterns
recovers the vector. -/
theorem decodeGroups_Encode (v : List Nat) (h : ∀ w ∈ v, w < 2 ^ 32) :
    decodeGroups (Encode v) = v := by
  induction v with
  | nil => rfl
  | cons w rest ih =>
      have hw : w < 2 ^ 32 := h w (List.mem_cons_self w rest)
      have hrest : ∀ u ∈ rest, u < 2 ^ 32 := fun u hu => h u (List.mem_cons_of_mem w hu)
      show unpackLE (w % 256) (w / 256 % 256) (w / 65536 % 256)
          (w / 16777216 % 256) :: decodeGroups (Encode rest) = w :: rest
      rw [ih hrest, unpack_pack w hw]

/-- decodeGroups yields one element per complete 4-byte group. -/
theorem decodeGroups_length (b : List Nat) (h : b.length % 4 = 0) :
    (decodeGroups b).length = b.length / 4 := by
  induction b using decodeGroups.induct with
  | case1 b0 b1 b2 b3 rest ih =>
      simp only [decodeGroups, List.length_cons]
      simp only [List.length_cons] at h
      rw [ih (by omega)]
      omega
  | case2 b hb =>
      match b, h, hb with
      | [], _, _ => rfl
      | [b0], h, _ => simp at h
      | [b0, b1], h, _ => simp at h
      | [b0, b1, b2], h, _ => simp at h
      | b0 :: b1 :: b2 :: b3 :: rest, _, hb => exact absurd rfl (hb b0 b1 b2 b3 rest)

/-- Element `i` of decodeGroups is the little-endian value of bytes
`4i .. 4i+3`. -/
theorem decodeGroups_getD (b : List Nat) (i : Nat) (h : 4 * i + 3 < b.length) :
    (decodeGroups b).getD i 0 =
      unpackLE (b.getD (4 * i) 0) (b.getD (4 * i + 1) 0)
        (b.getD (4 * i + 2) 0) (b.getD (4 * i + 3) 0) := by
  induction b using decodeGroups.induct generalizing i with
  | case1 b0 b1 b2 b3 rest ih =>
      cases i with
      | zero => simp [decodeGroups]
      | succ j =>
          have h' : 4 * j + 3 < rest.length := by
            simp only [List.length_cons] at h; omega
          have e0 : 4 * (j + 1) = 4 * j + 1 + 1 + 1 + 1 := by ring
          have e1 : 4 * (j + 1) + 1 = 4 * j + 1 + 1 + 1 + 1 + 1 := by ring
          have e2 : 4 * (j + 1) + 2 = 4 * j + 2 + 1 + 1 + 1 + 1 := by ring
          have e3 : 4 * (j + 1) + 3 = 4 * j + 3 + 1 + 1 + 1 + 1 := by ring
          simp only [decodeGroups, List.getD_cons_succ, e0, e1, e2, e3]
          exact ih j h'
  | case2 b hb =>
      match b, h, hb with
      | [], h, _ => simp only [List.length_nil] at h; omega
      | [b0], h, _ => simp only [List.length_cons, List.length_nil] at h; omega
      | [b0, b1], h, _ => simp only [List.length_cons, List.length_nil] at h; omega
      | [b0, b1, b2], h, _ =>
          simp only [List.length_cons, List.length_nil] at h; omega
      | b0 :: b1 :: b2 :: b3 :: rest, _, hb => exact absurd rfl (hb b0 b1 b2 b3 rest)

/-- genWeights produces one weight per index in `range num_params`. -/
theorem genWeights_length (n : Int) : (genWeights n).length = n.toNat := by
  simp [genWeights]

/-- Successful run of create_initial_model: when the parent directory of
the output path exists (and is a real, nonempty path), the function
creates nothing, encodes the generated weights, writes the blob at the
output path and reports the element count and byte size. -/
theorem create_initial_model_ok (p : String) (n : Int) (fs : FS)
    (h1 : dirname p ∈ fs.dirs) (h2 : dirname p ≠ "") :
    create_initial_model p n fs =
      .ok (writeFile fs p (.blob (Encode (genWeights n))),
        (genWeights n).length, (genWeights n).length * 4) := by
  have hmk : makedirs true (dirname p) fs.dirs = .ok fs.dirs := by
    simp [makedirs, h1, h2]
  unfold create_initial_model
  rw [hmk]

/-- Looking up a freshly written file returns the written contents. -/
theorem readFile_writeFile (fs : FS) (p : String) (d : FileData) :
    readFile (writeFile fs p d) p = some d := by
  simp [readFile, writeFile, List.lookup]

/-! ## Claim theorems -/

/-- C1: for every finite sequence of float32 values (bit patterns),
including the empty one, decoding the encoding yields the sequence again
bit-exactly (NaN patterns included, compared as bit patterns). -/
theorem C1_roundtrip (v : List Nat) (h : ∀ w ∈ v, w < 2 ^ 32) :
    Decode (Encode v) = .ok v := by
  unfold Decode
  rw [Encode_length, decodeGroups_Encode v h]
  simp [Nat.mul_mod_right]

/-- Witness for C1 at a concrete vector containing 1.0f, 0.0f and a
quiet-NaN pattern. -/
theorem C1_roundtrip_witness :
    (∀ w ∈ [0x3f800000, 0, 0x7fc00000], w < 2 ^ 32) ∧
      Decode (Encode [0x3f800000, 0, 0x7fc00000]) =
        .ok [0x3f800000, 0, 0x7fc00000] :=
  ⟨by decide, C1_roundtrip [0x3f800000, 0, 0x7fc00000] (by decide)⟩

/-- C2: the encoded buffer always measures 4 bytes per element, and for
every count `n ≥ 0` the generator writes a file of exactly `4 * n`
bytes. -/
theorem C2_size :
    (∀ v : List Nat, (Encode v).length = 4 * v.length) ∧
    (∀ (n : Nat) (p : String) (fs : FS), dirname p ∈ fs.dirs → dirname p ≠ "" →
      ∃ fs' bytes, create_initial_model p (n : Int) fs = .ok (fs', n, 4 * n) ∧
        readFile fs' p = some (.blob bytes) ∧ bytes.length = 4 * n) := by
  refine ⟨Encode_length, fun n p fs h1 h2 => ?_⟩
  have hlen : (genWeights (n : Int)).length = n := by
    rw [genWeights_length]; exact Int.toNat_natCast n
  refine ⟨writeFile fs p (.blob (Encode (genWeights (n : Int)))),
    Encode (genWeights (n : Int)), ?_, readFile_writeFile _ _ _, ?_⟩
  · rw [create_initial_model_ok p (n : Int) fs h1 h2, hlen]
    norm_num [Nat.mul_comm]
  · rw [Encode_length, hlen]

/-- Witness for C2 at count 2 with parent directory `models`. -/
theorem C2_size_witness :
    (Encode [] ).length = 4 * ([] : List Nat).length ∧
    (dirname "models/w.bin" ∈ (FS.mk ["models"] []).dirs ∧
      dirname "models/w.bin" ≠ "" ∧
      ∃ fs' bytes,
        create_initial_model "models/w.bin" ((2 : Nat) : Int)
            (FS.mk ["models"] []) = .ok (fs', 2, 8) ∧
          readFile fs' "models/w.bin" = some (.blob bytes) ∧
          bytes.length = 8) :=
  ⟨C2_size.1 [], by decide, by decide,
    C2_size.2 2 "models/w.bin" (FS.mk ["models"] []) (by decide) (by decide)⟩

/-- C3: Decode rejects every buffer whose length is not a multiple of 4
with `MalformedBufferError`, propagated to the caller; on every buffer of
length `4 * k` it succeeds, producing one float32 per 4-byte
little-endian group, in order. -/
theorem C3_malformed (b : List Nat) :
    (b.length % 4 ≠ 0 → Decode b = .error "MalformedBufferError") ∧
    (b.length % 4 = 0 → ∃ l, Decode b = .ok l ∧ l.length = b.length / 4 ∧
      ∀ i, i < b.length / 4 →
        l.getD i 0 = unpackLE (b.getD (4 * i) 0) (b.getD (4 * i + 1) 0)
          (b.getD (4 * i + 2) 0) (b.getD (4 * i + 3) 0)) := by
  constructor
  · intro h
    simp [Decode, h]
  · intro h
    refine ⟨decodeGroups b, by simp [Decode, h], decodeGroups_length b h, ?_⟩
    intro i hi
    exact decodeGroups_getD b i (by omega)

/-- Witness for C3: length 3 is rejected, length 4 decodes to the single
float32 pattern of 1.0f. -/
theorem C3_malformed_witness :
    Decode [1, 2, 3] = .error "MalformedBufferError" ∧
    (∃ l, Decode [0x00, 0x00, 0x80, 0x3f] = .ok l ∧
      l.length = [0x00, 0x00, 0x80, 0x3f].length / 4 ∧
      ∀ i, i < [0x00, 0x00, 0x80, 0x3f].length / 4 →
        l.getD i 0 = unpackLE ([0x00, 0x00, 0x80, 0x3f].getD (4 * i) 0)
          ([0x00, 0x00, 0x80, 0x3f].getD (4 * i + 1) 0)
          ([0x00, 0x00, 0x80, 0x3f].getD (4 * i + 2) 0)
          ([0x00, 0x00, 0x80, 0x3f].getD (4 * i + 3) 0)) :=
  ⟨(C3_malformed [1, 2, 3]).1 (by decide),
   (C3_malformed [0x00, 0x00, 0x80, 0x3f]).2 (by decide)⟩

/-- C4: encoding the float32 value 1.0 produces exactly the bytes
`00 00 80 3F`, and decoding those bytes yields exactly the float32 value
1.0 (bit pattern `0x3F800000`, IEEE-754 value 1). -/
theorem C4_endianness :
    Encode [f32bitsOfPosDy 1 0] = [0x00, 0x00, 0x80, 0x3f] ∧
    Decode [0x00, 0x00, 0x80, 0x3f] = .ok [f32bitsOfPosDy 1 0] ∧
    float32Val (f32bitsOfPosDy 1 0) = some 1 := by
  refine ⟨rfl, rfl, ?_⟩
  show float32Val 0x3f800000 = some 1
  norm_num [float32Val]

/-- C5 counterexample: at a concrete input checkpoint holding the single
weight 1.0f and the identity training procedure, the training command
writes the framework's checkpoint container to the output path, not the
codec's raw weight-blob: no byte blob whatsoever is written there. -/
theorem C5_counterexample :
    trainMain id "model_in.pt" "model_out.pt"
        (FS.mk [] [("model_in.pt", .torchCkpt [0x3f800000])]) =
      .ok (FS.mk [] [("model_out.pt", .torchCkpt [0x3f800000]),
        ("model_in.pt", .torchCkpt [0x3f800000])]) ∧
    ¬ ∃ bytes, readFile (FS.mk [] [("model_out.pt", .torchCkpt [0x3f800000]),
        ("model_in.pt", .torchCkpt [0x3f800000])]) "model_out.pt" =
      some (.blob bytes) := by
  refine ⟨rfl, ?_⟩
  rintro ⟨bytes, h⟩
  rw [show readFile (FS.mk [] [("model_out.pt", .torchCkpt [0x3f800000]),
      ("model_in.pt", .torchCkpt [0x3f800000])]) "model_out.pt" =
    some (.torchCkpt [0x3f800000]) from rfl] at h
  simp at h

/-- C5 amended: the training command reads its input model from the given
input path and writes its output model to the given output path, but in
the external framework's checkpoint-container format (torch.save of the
updated state dict), not in the repository's raw weight-blob codec
format. -/
theorem C5_amended (trainProc : List Nat → List Nat) (w : List Nat)
    (model_in model_out : String) (fs : FS)
    (h : readFile fs model_in = some (.torchCkpt w)) :
    trainMain trainProc model_in model_out fs =
      .ok (writeFile fs model_out (.torchCkpt (trainProc w))) := by
  unfold trainMain
  rw [h]

/-- Witness for the amended C5 at a concrete one-weight checkpoint and
the identity training procedure. -/
theorem C5_amended_witness :
    readFile (FS.mk [] [("a.pt", .torchCkpt [5])]) "a.pt" =
      some (.torchCkpt [5]) ∧
    trainMain id "a.pt" "b.pt" (FS.mk [] [("a.pt", .torchCkpt [5])]) =
      .ok (writeFile (FS.mk [] [("a.pt", .torchCkpt [5])]) "b.pt"
        (.torchCkpt (id [5]))) :=
  ⟨rfl, C5_amended id [5] "a.pt" "b.pt" (FS.mk [] [("a.pt", .torchCkpt [5])]) rfl⟩

/-- C6: generating a weight-blob with target count 10 (into an existing
`models` directory) reports 10 parameters and 40 bytes, writes a file of
exactly 40 bytes, and decoding that file recovers exactly 10 float32
elements, each bit-identical to the documented generation formula value
`0.1 * (index + 1)` — the binary32 value nearest `(index + 1) / 10`. -/
theorem C6_end_to_end :
    ∃ fs', create_initial_model "models/init_model.pt" 10
        (FS.mk ["models"] []) = .ok (fs', 10, 40) ∧
      ∃ bytes, readFile fs' "models/init_model.pt" = some (.blob bytes) ∧
        bytes.length = 40 ∧
        Decode bytes = .ok ((List.range 10).map specFormulaF32) ∧
        ((List.range 10).map specFormulaF32).length = 10 := by
  exact ⟨_, rfl, Encode (genWeights 10), rfl, by decide, rfl, by decide⟩

/-- Shape of any successful create_initial_model run: the output path
holds the encoded generated weights and the report is (count, 4*count). -/
theorem create_ok_shape (p : String) (n : Int) (fs : FS) (o : FS × Nat × Nat)
    (h : create_initial_model p n fs = .ok o) :
    readFile o.1 p = some (.blob (Encode (genWeights n))) ∧
      o.2 = ((genWeights n).length, (genWeights n).length * 4) := by
  unfold create_initial_model at h
  cases hmk : makedirs true (dirname p) fs.dirs with
  | error e => rw [hmk] at h; exact absurd h (by simp)
  | ok dirs' =>
      rw [hmk] at h
      simp only [Except.ok.injEq] at h
      subst h
      exact ⟨readFile_writeFile _ _ _, rfl⟩

/-- C7: the initial-vector generator is deterministic — two successful
invocations with the same target count, regardless of output path or
prior filesystem state, write bit-identical file contents and report
identical counts. -/
theorem C7_deterministic (n : Int) (p1 p2 : String) (fs1 fs2 : FS)
    (o1 o2 : FS × Nat × Nat)
    (h1 : create_initial_model p1 n fs1 = .ok o1)
    (h2 : create_initial_model p2 n fs2 = .ok o2) :
    readFile o1.1 p1 = readFile o2.1 p2 ∧ o1.2 = o2.2 := by
  obtain ⟨r1, s1⟩ := create_ok_shape p1 n fs1 o1 h1
  obtain ⟨r2, s2⟩ := create_ok_shape p2 n fs2 o2 h2
  exact ⟨r1.trans r2.symm, s1.trans s2.symm⟩

/-- Witness for C7: two runs with count 3 into different directories and
paths produce the same blob and the same report. -/
theorem C7_deterministic_witness :
    create_initial_model "m/a.bin" 3 (FS.mk ["m"] []) =
      .ok (FS.mk ["m"] [("m/a.bin", .blob (Encode (genWeights 3)))], 3, 12) ∧
    create_initial_model "n/b.bin" 3 (FS.mk ["n"] []) =
      .ok (FS.mk ["n"] [("n/b.bin", .blob (Encode (genWeights 3)))], 3, 12) ∧
    (readFile (FS.mk ["m"] [("m/a.bin", .blob (Encode (genWeights 3)))]) "m/a.bin" =
       readFile (FS.mk ["n"] [("n/b.bin", .blob (Encode (genWeights 3)))]) "n/b.bin" ∧
     ((3, 12) : Nat × Nat) = (3, 12)) :=
  ⟨rfl, rfl,
   C7_deterministic 3 "m/a.bin" "n/b.bin" (FS.mk ["m"] []) (FS.mk ["n"] [])
     (FS.mk ["m"] [("m/a.bin", .blob (Encode (genWeights 3)))], 3, 12)
     (FS.mk ["n"] [("n/b.bin", .blob (Encode (genWeights 3)))], 3, 12) rfl rfl⟩

/-- C8: the ensure-parent-directory step is idempotent — when the parent
directory of the output path already exists, `os.makedirs(...,
exist_ok=True)` succeeds as a no-op and raises no error. -/
theorem C8_makedirs_idempotent (p : String) (dirs : List String)
    (h1 : dirname p ∈ dirs) (h2 : dirname p ≠ "") :
    makedirs true (dirname p) dirs = .ok dirs := by
  simp [makedirs, h1, h2]

/-- Witness for C8 with parent `models` already present. -/
theorem C8_makedirs_idempotent_witness :
    dirname "models/x.bin" ∈ ["data", "models"] ∧
    dirname "models/x.bin" ≠ "" ∧
    makedirs true (dirname "models/x.bin") ["data", "models"] =
      .ok ["data", "models"] :=
  ⟨by decide, by decide,
   C8_makedirs_idempotent "models/x.bin" ["data", "models"] (by decide) (by decide)⟩

/-- C9: on a bare filename (no directory component), create_initial_model
raises `FileNotFoundError` out of `os.makedirs(os.path.dirname(path))` —
which is `os.makedirs("")` — before writing anything, even though the
plain write of that filename would itself succeed. -/
theorem C9_bare_filename (p : String) (n : Int) (fs : FS)
    (h : ('/' : Char) ∉ p.data) :
    create_initial_model p n fs = .error "FileNotFoundError" ∧
    readFile (writeFile fs p (.blob (Encode (genWeights n)))) p =
      some (.blob (Encode (genWeights n))) := by
  have hnone : p.data.reverse.findIdx? (fun c => c = '/') = none := by
    rw [List.findIdx?_eq_none_iff]
    intro x hx
    have hxp : x ∈ p.data := List.mem_reverse.mp hx
    have : x ≠ '/' := fun hc => h (hc ▸ hxp)
    simpa using this
  have hd : dirname p = "" := by
    unfold dirname dirnameChars lastSlashPos
    rw [hnone]
  constructor
  · unfold create_initial_model
    rw [hd]
    rfl
  · exact readFile_writeFile _ _ _

/-- Witness for C9 at the bare filename `model.bin`. -/
theorem C9_bare_filename_witness :
    (('/' : Char) ∉ ("model.bin" : String).data) ∧
    (create_initial_model "model.bin" 10 (FS.mk [] []) =
        .error "FileNotFoundError" ∧
      readFile (writeFile (FS.mk [] []) "model.bin"
          (.blob (Encode (genWeights 10)))) "model.bin" =
        some (.blob (Encode (genWeights 10)))) :=
  ⟨by decide, C9_bare_filename "model.bin" 10 (FS.mk [] []) (by decide)⟩

/-- C10: for every nonpositive parameter count (zero or negative), with a
valid existing parent directory, create_initial_model does not raise: it
generates the empty weight sequence, writes a file of exactly 0 bytes,
and reports 0 parameters and 0 bytes. -/
theorem C10_nonpositive_count (n : Int) (p : String) (fs : FS) (hn : n ≤ 0)
    (h1 : dirname p ∈ fs.dirs) (h2 : dirname p ≠ "") :
    ∃ fs', create_initial_model p n fs = .ok (fs', 0, 0) ∧
      ∃ bytes, readFile fs' p = some (.blob bytes) ∧ bytes.length = 0 := by
  have hg : genWeights n = [] := by
    unfold genWeights
    rw [Int.toNat_of_nonpos hn]
    rfl
  refine ⟨writeFile fs p (.blob []), ?_, [], readFile_writeFile _ _ _, rfl⟩
  have hok := create_initial_model_ok p n fs h1 h2
  rw [hg] at hok
  simpa [Encode] using hok

/-- Witness for C10 at count -5 with parent directory `models`. -/
theorem C10_nonpositive_count_witness :
    ((-5 : Int) ≤ 0 ∧ dirname "models/e.bin" ∈ (FS.mk ["models"] []).dirs ∧
      dirname "models/e.bin" ≠ "") ∧
    (∃ fs', create_initial_model "models/e.bin" (-5) (FS.mk ["models"] []) =
        .ok (fs', 0, 0) ∧
      ∃ bytes, readFile fs' "models/e.bin" = some (.blob bytes) ∧
        bytes.length = 0) :=
  ⟨⟨by decide, by decide, by decide⟩,
   C10_nonpositive_count (-5) "models/e.bin" (FS.mk ["models"] [])
     (by decide) (by decide) (by decide)⟩
